import Mathlib

/-!
Shallow embedding of `audit_events.go` from lacework/libaudit-go.

The file models the frame-splitting loop of `GetRawAuditMessages`, the
per-message dispatch of `GetAuditEvents`, `GetRawAuditEvents` and
`GetAuditMessages`, the event decoder `NewAuditEvent`, and the driver
loop skeletons (read-error handling and cancellation).

Byte buffers are `List Nat` (each element a byte value, reduced mod 256
at every read).  Go slice operations that can panic (out-of-bounds
slicing) are modelled totally: the embedding returns `none` where the Go
code would panic.  The external collaborators that are not part of
`audit_events.go` (the `auditConstant` `String` resolver and
`ParseAuditEvent`) are taken as explicit function parameters.
-/

namespace LibAudit

/-- `syscall.NLMSG_HDRLEN`: netlink header size in bytes. -/
def NLMSG_HDRLEN : Nat := 16

/-- `syscall.NLMSG_ALIGNTO`: netlink alignment boundary in bytes. -/
def NLMSG_ALIGNTO : Nat := 4

/-- `syscall.NLMSG_ERROR`: reserved transport-error message type. -/
def NLMSG_ERROR : Nat := 2

/-- Modelled from the spec: `round_up(header.length, ALIGN)` — the
`nlmAlignOf` helper lives outside `audit_events.go`; the spec describes
it as rounding the header length up to the transport's alignment
boundary. -/
def nlmAlignOf (msglen : Nat) : Nat :=
  (msglen + NLMSG_ALIGNTO - 1) / NLMSG_ALIGNTO * NLMSG_ALIGNTO

/-- Byte `i` of a buffer, reduced to an actual byte value. -/
def byteAt (b : List Nat) (i : Nat) : Nat := (b.getD i 0) % 256

/-- Modelled from the spec: fixed-width header fields are read in the
native byte order of the host (little-endian on the supported
platforms); `nativeEndian` lives outside `audit_events.go`.  Reads a
32-bit unsigned value from the first four bytes.  Only used under a
length guard (the header decode is guarded by `len(b) >= NLMSG_HDRLEN`). -/
def u32le (b : List Nat) : Nat :=
  byteAt b 0 + 256 * byteAt b 1 + 65536 * byteAt b 2 + 16777216 * byteAt b 3

/-- 16-bit little-endian read from the first two bytes. -/
def u16le (b : List Nat) : Nat := byteAt b 0 + 256 * byteAt b 1

/-- Reinterpret a 32-bit unsigned value as Go `int32`. -/
def toInt32 (n : Nat) : Int :=
  if n % 4294967296 < 2147483648 then (n % 4294967296 : Int)
  else (n % 4294967296 : Int) - 4294967296

/-- The 4-byte error-code extraction `int32(nativeEndian().Uint32(b[0:4]))`.
The Go expression `b[0:4]` panics when `len(b) < 4`; the total embedding
returns `none` there. -/
def readErrCode (b : List Nat) : Option Int :=
  if b.length < 4 then none else some (toInt32 (u32le b))

/-- `syscall.NlMsghdr`, restricted to the two fields `audit_events.go`
reads (`Len` and `Type`); `Flags`, `Seq` and `Pid` are never consulted.
The Go field `Type` is spelled `Typ` because `Type` is reserved in Lean. -/
structure NlMsghdr where
  Len : Nat
  Typ : Nat
deriving DecidableEq, Repr

/-- A pre-split netlink message as returned by `Netlink.Receive`. -/
structure NetlinkMessage where
  header : NlMsghdr
  data : List Nat
deriving DecidableEq, Repr

/-- `AuditEvent` from `audit_events.go` (`Data` as an association list;
the Go field `Type` is spelled `Typ` because `Type` is reserved in Lean). -/
structure AuditEvent where
  Serial : String
  Timestamp : String
  Typ : String
  Data : List (String × String)
  Raw : String
deriving DecidableEq, Repr

/-- The distinguishable errors `audit_events.go` hands to callbacks. -/
inductive CbError where
  /-- `fmt.Errorf("error receiving events %d", v)` -/
  | receiveError (code : Int)
  /-- `errors.New("Unknown Type: " + string(msg.Header.Type))` in
  `GetRawAuditEvents` -/
  | unknownTypeRaw (code : Nat)
  /-- `fmt.Errorf("NewAuditEvent failed: unknown message type %d", t)` -/
  | newEventUnknownType (code : Nat)
  /-- an error returned by the external `ParseAuditEvent` -/
  | parseError (e : String)
deriving DecidableEq, Repr

/-- One invocation of the `RawEventTypeCallback` of `GetRawAuditMessages`:
`cb(h.Type, string(text), err, args...)`. -/
structure RawTypeCb where
  typ : Nat
  text : List Nat
  err : Option CbError
deriving DecidableEq, Repr

/-- One invocation of the `EventCallback` of `GetAuditEvents` /
`GetAuditMessages`: `cb(event, err, args...)`. -/
structure ParsedCb where
  event : Option AuditEvent
  err : Option CbError
deriving DecidableEq, Repr

/-- One invocation of the `RawEventCallback` of `GetRawAuditEvents`:
`cb(m, err, args...)`. -/
structure RawCb where
  msg : String
  err : Option CbError
deriving DecidableEq, Repr

/-- One iteration of the splitting loop of `GetRawAuditMessages`
(lines 135–172).  Result:
`some none` — the loop exits (`len(b) < NLMSG_HDRLEN`, or the header
bounds check `h.Len < NLMSG_HDRLEN || h.Len > len(b)` breaks);
`some (some (calls, b'))` — one frame processed, producing the listed
callback invocations and the advanced buffer `b'`;
`none` — the Go code panics in this iteration (out-of-bounds slice). -/
def splitStep (b : List Nat) : Option (Option (List RawTypeCb × List Nat)) :=
  -- Go locals, written out at every occurrence:
  --   h.Len  = u32le b,  h.Type = u16le (b.drop 4)   (header decode)
  --   b1     = b.drop NLMSG_HDRLEN                   (b = b[NLMSG_HDRLEN:])
  --   dlen   = nlmAlignOf h.Len - NLMSG_HDRLEN
  if b.length < NLMSG_HDRLEN then some none
  else if u32le b < NLMSG_HDRLEN ∨ b.length < u32le b then some none
  else if (b.drop NLMSG_HDRLEN).length = u32le b ∨
      nlmAlignOf (u32le b) - NLMSG_HDRLEN = u32le b then
    -- kernel quirk branch: text is b[:h.Len]
    if u16le (b.drop 4) = NLMSG_ERROR then
      match readErrCode (b.drop NLMSG_HDRLEN) with
      | none => none
      | some v =>
        if v ≠ 0 then
          if nlmAlignOf (u32le b) - NLMSG_HDRLEN ≤ (b.drop NLMSG_HDRLEN).length then
            some (some ([⟨u16le (b.drop 4), (b.drop NLMSG_HDRLEN).take (u32le b),
              some (.receiveError v)⟩],
              (b.drop NLMSG_HDRLEN).drop (nlmAlignOf (u32le b) - NLMSG_HDRLEN)))
          else none
        else
          if nlmAlignOf (u32le b) - NLMSG_HDRLEN ≤ (b.drop NLMSG_HDRLEN).length then
            some (some ([],
              (b.drop NLMSG_HDRLEN).drop (nlmAlignOf (u32le b) - NLMSG_HDRLEN)))
          else none
    else
      if nlmAlignOf (u32le b) - NLMSG_HDRLEN ≤ (b.drop NLMSG_HDRLEN).length then
        some (some ([⟨u16le (b.drop 4), (b.drop NLMSG_HDRLEN).take (u32le b), none⟩],
          (b.drop NLMSG_HDRLEN).drop (nlmAlignOf (u32le b) - NLMSG_HDRLEN)))
      else none
  else
    -- regular branch: text is b[:h.Len-NLMSG_HDRLEN]
    if u16le (b.drop 4) = NLMSG_ERROR then
      match readErrCode (b.drop NLMSG_HDRLEN) with
      | none => none
      | some v =>
        if v ≠ 0 then
          if nlmAlignOf (u32le b) - NLMSG_HDRLEN ≤ (b.drop NLMSG_HDRLEN).length then
            some (some ([⟨u16le (b.drop 4),
              (b.drop NLMSG_HDRLEN).take (u32le b - NLMSG_HDRLEN),
              some (.receiveError v)⟩],
              (b.drop NLMSG_HDRLEN).drop (nlmAlignOf (u32le b) - NLMSG_HDRLEN)))
          else none
        else
          if nlmAlignOf (u32le b) - NLMSG_HDRLEN ≤ (b.drop NLMSG_HDRLEN).length then
            some (some ([],
              (b.drop NLMSG_HDRLEN).drop (nlmAlignOf (u32le b) - NLMSG_HDRLEN)))
          else none
    else
      if nlmAlignOf (u32le b) - NLMSG_HDRLEN ≤ (b.drop NLMSG_HDRLEN).length then
        some (some ([⟨u16le (b.drop 4),
          (b.drop NLMSG_HDRLEN).take (u32le b - NLMSG_HDRLEN), none⟩],
          (b.drop NLMSG_HDRLEN).drop (nlmAlignOf (u32le b) - NLMSG_HDRLEN)))
      else none

/-- The splitting loop of `GetRawAuditMessages`, fuel-indexed.  Every
iteration consumes `nlmAlignOf hLen ≥ NLMSG_HDRLEN` bytes, so a fuel of
`b.length + 1` always suffices. -/
def splitLoop : Nat → List Nat → Option (List RawTypeCb)
  | 0, _ => none
  | fuel + 1, b =>
    match splitStep b with
    | none => none
    | some none => some []
    | some (some (calls, b')) => (splitLoop fuel b').map (calls ++ ·)

/-- The whole body run on one received raw buffer. -/
def splitMessages (b : List Nat) : Option (List RawTypeCb) :=
  splitLoop (b.length + 1) b

/-- The synthetic placeholder `"auditConstant(" + strconv.Itoa(int(t)) + ")"`
that the type-name resolver produces for an unregistered code, exactly as
`audit_events.go` spells it in its two comparisons (lines 43 and 105). -/
def placeholder (t : Nat) : String := "auditConstant(" ++ toString t ++ ")"

/-- Interpret a payload as Go `string(msg.Data[:])`: each byte one char. -/
def byteText (b : List Nat) : String := String.mk (b.map Char.ofNat)

/-- The external text-record parser `ParseAuditEvent(text, auditConstant(t), true)`
is not part of `audit_events.go`; drivers take it as a function from the raw
text and the numeric type code to an event or an error string. -/
def AuditParser : Type := String → Nat → Except String AuditEvent

/-- The external `auditConstant` `String()` resolver, as a function from the
numeric type code to its symbolic name (or the placeholder). -/
def TypeResolver : Type := Nat → String

/-- `NewAuditEvent` (lines 38–48): parse, then reject events whose parsed
`Type` field still equals the synthetic placeholder. -/
def NewAuditEvent (parser : AuditParser) (msg : NetlinkMessage) :
    Except CbError AuditEvent :=
  match parser (byteText msg.data) msg.header.Typ with
  | .error e => .error (.parseError e)
  | .ok x =>
    if x.Typ = placeholder msg.header.Typ then
      .error (.newEventUnknownType msg.header.Typ)
    else .ok x

/-- Dispatch of one pre-split message in `GetAuditEvents` (lines 63–73):
`NLMSG_ERROR` frames deliver the nonzero code and suppress code 0; other
frames go through `NewAuditEvent` and `cb(nae, err)` is always invoked.
`none` models the panic of the unguarded `msg.Data[0:4]`. -/
def getAuditEventsDispatch (parser : AuditParser) (msg : NetlinkMessage) :
    Option (List ParsedCb) :=
  if msg.header.Typ = NLMSG_ERROR then
    match readErrCode msg.data with
    | none => none
    | some v => if v ≠ 0 then some [⟨none, some (.receiveError v)⟩] else some []
  else
    match NewAuditEvent parser msg with
    | .ok nae => some [⟨some nae, none⟩]
    | .error e => some [⟨none, some e⟩]

/-- Dispatch of one pre-split message in `GetAuditMessages` (lines 206–216);
the loop body is verbatim identical to the one in `GetAuditEvents`. -/
def getAuditMessagesDispatch (parser : AuditParser) (msg : NetlinkMessage) :
    Option (List ParsedCb) :=
  if msg.header.Typ = NLMSG_ERROR then
    match readErrCode msg.data with
    | none => none
    | some v => if v ≠ 0 then some [⟨none, some (.receiveError v)⟩] else some []
  else
    match NewAuditEvent parser msg with
    | .ok nae => some [⟨some nae, none⟩]
    | .error e => some [⟨none, some e⟩]

/-- Dispatch of one pre-split message in `GetRawAuditEvents` (lines 93–112).
Note the structure of the Go code: after the `if/else` on the message type,
`cb(m, err, args...)` (line 111) runs unconditionally, so the error-frame
branch adds its own invocation (line 101) and then falls through to a
second one. -/
def getRawAuditEventsDispatch (resolver : TypeResolver) (msg : NetlinkMessage) :
    Option (List RawCb) :=
  -- var m string; var err error  (zero values: "" and nil)
  if msg.header.Typ = NLMSG_ERROR then
    match readErrCode msg.data with
    | none => none
    | some v =>
      if v ≠ 0 then
        -- cb(m, fmt.Errorf(...)) at line 101, then cb(m, err) at line 111
        some [⟨"", some (.receiveError v)⟩, ⟨"", none⟩]
      else
        -- only the unconditional cb(m, err) at line 111
        some [⟨"", none⟩]
  else
    if resolver msg.header.Typ = placeholder msg.header.Typ then
      some [⟨"", some (.unknownTypeRaw msg.header.Typ)⟩]
    else
      some [⟨"type=" ++ (resolver msg.header.Typ).drop 6 ++ " msg=" ++
        byteText msg.data ++ "\n", none⟩]

/-- The inner `for _, msg := range msgs` loop over pre-split messages,
for the parsed-output drivers. -/
def processParsedMsgs (parser : AuditParser) (dispatch : AuditParser → NetlinkMessage → Option (List ParsedCb)) :
    List NetlinkMessage → Option (List ParsedCb)
  | [] => some []
  | m :: ms =>
    match dispatch parser m with
    | none => none
    | some cs => (processParsedMsgs parser dispatch ms).map (cs ++ ·)

/-- The inner message loop of `GetRawAuditEvents`. -/
def processRawMsgs (resolver : TypeResolver) :
    List NetlinkMessage → Option (List RawCb)
  | [] => some []
  | m :: ms =>
    match getRawAuditEventsDispatch resolver m with
    | none => none
    | some cs => (processRawMsgs resolver ms).map (cs ++ ·)

/-- What a driver-loop iteration decides about the loop. -/
inductive LoopControl where
  | next
  | stop
deriving DecidableEq, Repr

/-- One iteration of the unbounded loop of `GetAuditEvents` (lines 58–76):
a read error skips dispatch and the loop continues; there is no return. -/
def getAuditEventsIter (parser : AuditParser)
    (recv : Except String (List NetlinkMessage)) :
    Option (List ParsedCb × LoopControl) :=
  match recv with
  | .error _ => some ([], .next)
  | .ok msgs => (processParsedMsgs parser getAuditEventsDispatch msgs).map (·, .next)

/-- One iteration of the unbounded loop of `GetRawAuditEvents` (lines 88–115). -/
def getRawAuditEventsIter (resolver : TypeResolver)
    (recv : Except String (List NetlinkMessage)) :
    Option (List RawCb × LoopControl) :=
  match recv with
  | .error _ => some ([], .next)
  | .ok msgs => (processRawMsgs resolver msgs).map (·, .next)

/-- One iteration of the cancellable loop of `GetRawAuditMessages`
(lines 126–188): the `done` channel is polled first and a signalled case
returns immediately; otherwise a read error skips dispatch and continues. -/
def getRawAuditMessagesIter (done : Bool) (recv : Except String (List Nat)) :
    Option (List RawTypeCb × LoopControl) :=
  if done then some ([], .stop)
  else
    match recv with
    | .error _ => some ([], .next)
    | .ok b => (splitMessages b).map (·, .next)

/-- One iteration of the cancellable loop of `GetAuditMessages`
(lines 199–218). -/
def getAuditMessagesIter (parser : AuditParser) (done : Bool)
    (recv : Except String (List NetlinkMessage)) :
    Option (List ParsedCb × LoopControl) :=
  if done then some ([], .stop)
  else
    match recv with
    | .error _ => some ([], .next)
    | .ok msgs => (processParsedMsgs parser getAuditMessagesDispatch msgs).map (·, .next)

/-- Run a cancellable driver loop: `step i done` is the `i`-th iteration,
`obs i` tells whether the cancellation signal is observable at the start of
iteration `i`.  Returns the iteration index at which the loop returned and
the accumulated callback invocations (`none`: a panic, or fuel ran out). -/
def runCancellable {γ : Type} (step : Nat → Bool → Option (List γ × LoopControl))
    (obs : Nat → Bool) : Nat → Nat → Option (Nat × List γ)
  | 0, _ => none
  | fuel + 1, i =>
    match step i (obs i) with
    | none => none
    | some (cs, .stop) => some (i, cs)
    | some (cs, .next) =>
      (runCancellable step obs fuel (i + 1)).map (fun p => (p.1, cs ++ p.2))

/-- A concrete well-behaved parser, used to instantiate driver theorems:
it copies the resolved symbolic name into the event's type field. -/
def okParser : AuditParser := fun s t => .ok ⟨"", "", placeholder t, [], s⟩

/-! ## General facts about the embedding -/

theorem le_nlmAlignOf (x : Nat) : x ≤ nlmAlignOf x := by
  unfold nlmAlignOf NLMSG_ALIGNTO
  omega

theorem nlmAlignOf_of_mod (x : Nat) (h : x % 4 = 0) : nlmAlignOf x = x := by
  unfold nlmAlignOf NLMSG_ALIGNTO
  omega

theorem splitStep_nil : splitStep [] = some none := by
  unfold splitStep
  rw [if_pos (by simp [NLMSG_HDRLEN])]

theorem splitLoop_nil (fuel : Nat) (h : 1 ≤ fuel) : splitLoop fuel [] = some [] := by
  cases fuel with
  | zero => omega
  | succ n => simp [splitLoop, splitStep_nil]

/-- In `runCancellable`, when the `done` case of the `select` returns
immediately with no callback, no iteration whose index sees the signal
observable ever runs its receive-and-dispatch cycle. -/
theorem runCancellable_not_signalled {γ : Type}
    (step : Nat → Bool → Option (List γ × LoopControl)) (obs : Nat → Bool)
    (hstop : ∀ i, step i true = some ([], .stop)) :
    ∀ fuel s r acc, runCancellable step obs fuel s = some (r, acc) →
      ∀ i, s ≤ i → i < r → obs i = false := by
  intro fuel
  induction fuel with
  | zero =>
    intro s r acc h
    simp [runCancellable] at h
  | succ n ih =>
    intro s r acc h i hsi hir
    rcases ho : obs s with _ | _
    · unfold runCancellable at h
      rw [ho] at h
      rcases hstep : step s false with _ | ⟨cs, c⟩
      · rw [hstep] at h; simp at h
      · rw [hstep] at h
        cases c with
        | stop =>
          simp at h
          omega
        | next =>
          simp only [Option.map_eq_some'] at h
          obtain ⟨⟨r0, acc0⟩, hrun, heq⟩ := h
          simp at heq
          rcases Nat.eq_or_lt_of_le hsi with rfl | hlt
          · exact ho
          · exact ih (s + 1) r0 acc0 hrun i hlt (by omega)
    · unfold runCancellable at h
      rw [ho, hstop s] at h
      simp at h
      omega

/-! ## The claims -/

/-- Claim C1 (code bug evaluation): error-frame suppression fails in
`GetRawAuditEvents`.  Its unconditional `cb(m, err, args...)` (line 111)
also fires for `NLMSG_ERROR` frames, so a code-0 error frame produces one
callback invocation (empty message, nil error) instead of zero, and a
nonzero-code error frame produces two invocations instead of one.  The
other three drivers (`GetAuditEvents`, `GetAuditMessages`, and the
splitter loop of `GetRawAuditMessages`) suppress code 0 and deliver a
nonzero code exactly once, as the claim states. -/
theorem claim1_GetRawAuditEvents_error_frame_not_suppressed :
    getRawAuditEventsDispatch placeholder ⟨⟨20, NLMSG_ERROR⟩, [0, 0, 0, 0]⟩ =
      some [⟨"", none⟩] ∧
    getRawAuditEventsDispatch placeholder ⟨⟨20, NLMSG_ERROR⟩, [5, 0, 0, 0]⟩ =
      some [⟨"", some (.receiveError 5)⟩, ⟨"", none⟩] ∧
    getAuditEventsDispatch okParser ⟨⟨20, NLMSG_ERROR⟩, [0, 0, 0, 0]⟩ = some [] ∧
    getAuditEventsDispatch okParser ⟨⟨20, NLMSG_ERROR⟩, [5, 0, 0, 0]⟩ =
      some [⟨none, some (.receiveError 5)⟩] ∧
    getAuditMessagesDispatch okParser ⟨⟨20, NLMSG_ERROR⟩, [0, 0, 0, 0]⟩ = some [] ∧
    getAuditMessagesDispatch okParser ⟨⟨20, NLMSG_ERROR⟩, [5, 0, 0, 0]⟩ =
      some [⟨none, some (.receiveError 5)⟩] ∧
    splitMessages ([20, 0, 0, 0, 2, 0, 0, 0, 0, 0, 0, 0, 0, 0, 0, 0] ++
      [0, 0, 0, 0] ++ [0, 0, 0, 0, 0, 0, 0, 0, 0, 0, 0, 0]) = some [] ∧
    splitMessages ([20, 0, 0, 0, 2, 0, 0, 0, 0, 0, 0, 0, 0, 0, 0, 0] ++
      [5, 0, 0, 0] ++ [0, 0, 0, 0, 0, 0, 0, 0, 0, 0, 0, 0]) =
      some [⟨NLMSG_ERROR, [5, 0, 0, 0], some (.receiveError 5)⟩] := by
  refine ⟨?_, ?_, ?_, ?_, ?_, ?_, ?_, ?_⟩ <;> decide

/-- Claim C2 (counterexample): in the quirk case the delivered payload is
`header.length` bytes after the header, not `header.length - header_size`
bytes as the claim states.  Buffer: a 16-byte header with `Len = 20`
followed by 20 payload bytes; the quirk condition holds
(`len(b) == h.Len` after the header strip) and the delivered text has 20
bytes, not `20 - 16 = 4`. -/
theorem claim2_counterexample :
    splitMessages ([20, 0, 0, 0, 1, 0, 0, 0, 0, 0, 0, 0, 0, 0, 0, 0] ++
      List.replicate 20 7) =
      some [⟨1, List.replicate 20 7, none⟩] ∧
    (List.replicate 20 7 : List Nat).length ≠
      u32le ([20, 0, 0, 0, 1, 0, 0, 0, 0, 0, 0, 0, 0, 0, 0, 0] ++
        List.replicate 20 7) - NLMSG_HDRLEN := by
  constructor <;> decide

/-- Claim C2 (amended): for every frame yielded by the splitter for which
the quirk condition holds, the delivered payload is
`(b.drop header_size).take header.length` — `header.length` bytes starting
right after the header (the slice `[header_size : header_size + header.length]`
of the frame), without the rounding subtraction. -/
theorem claim2_quirk_payload_amended (b : List Nat) (calls : List RawTypeCb)
    (b' : List Nat)
    (hq : (b.drop NLMSG_HDRLEN).length = u32le b ∨
      nlmAlignOf (u32le b) - NLMSG_HDRLEN = u32le b)
    (hs : splitStep b = some (some (calls, b'))) :
    ∀ c ∈ calls, c.text = (b.drop NLMSG_HDRLEN).take (u32le b) := by
  have h16 : ¬ b.length < NLMSG_HDRLEN := by
    intro h; unfold splitStep at hs; rw [if_pos h] at hs; simp at hs
  have hbnd : ¬ (u32le b < NLMSG_HDRLEN ∨ b.length < u32le b) := by
    intro h; unfold splitStep at hs; rw [if_neg h16, if_pos h] at hs; simp at hs
  unfold splitStep at hs
  rw [if_neg h16, if_neg hbnd, if_pos hq] at hs
  intro c hc
  split at hs
  next htype =>
    split at hs
    next => exact absurd hs (by simp)
    next v hrc =>
      split at hs
      next hv =>
        split at hs
        next hd =>
          simp only [Option.some.injEq, Prod.mk.injEq] at hs
          rw [← hs.1] at hc
          simp at hc
          subst hc
          rfl
        next => exact absurd hs (by simp)
      next hv =>
        split at hs
        next hd =>
          simp only [Option.some.injEq, Prod.mk.injEq] at hs
          rw [← hs.1] at hc
          simp at hc
        next => exact absurd hs (by simp)
  next htype =>
    split at hs
    next hd =>
      simp only [Option.some.injEq, Prod.mk.injEq] at hs
      rw [← hs.1] at hc
      simp at hc
      subst hc
      rfl
    next => exact absurd hs (by simp)

theorem claim2_quirk_payload_amended_witness :
    (⟨1, List.replicate 20 7, none⟩ : RawTypeCb).text =
      (([20, 0, 0, 0, 1, 0, 0, 0, 0, 0, 0, 0, 0, 0, 0, 0] ++
        List.replicate 20 7).drop NLMSG_HDRLEN).take
        (u32le ([20, 0, 0, 0, 1, 0, 0, 0, 0, 0, 0, 0, 0, 0, 0, 0] ++
          List.replicate 20 7)) :=
  claim2_quirk_payload_amended
    ([20, 0, 0, 0, 1, 0, 0, 0, 0, 0, 0, 0, 0, 0, 0, 0] ++ List.replicate 20 7)
    [⟨1, List.replicate 20 7, none⟩] (List.replicate 16 7)
    (by decide) (by decide) ⟨1, List.replicate 20 7, none⟩ (by decide)

/-- Claim C3 (counterexample): for a single frame whose header length
equals the full buffer length, the loop does not always yield exactly one
frame with the full post-header text.  With an unaligned length
(`Len = 17`, a 17-byte buffer) the final advance `b = b[dlen:]` is out of
bounds (`dlen = 4 > 1`) and the total embedding yields `none` (the Go
loop panics); with an `NLMSG_ERROR` frame of code 0 (`Len = 32`, 32-byte
buffer) the frame is suppressed and zero callbacks are delivered. -/
theorem claim3_counterexample :
    splitMessages [17, 0, 0, 0, 1, 0, 0, 0, 0, 0, 0, 0, 0, 0, 0, 0, 99] = none ∧
    splitMessages ([32, 0, 0, 0, 2, 0, 0, 0, 0, 0, 0, 0, 0, 0, 0, 0] ++
      List.replicate 16 0) = some [] := by
  constructor <;> decide

/-- Claim C3 (amended): for every buffer consisting of a single frame
whose header length field equals the full buffer length, *provided the
buffer length is a multiple of the 4-byte alignment boundary*, the
splitting loop yields exactly one frame whose delivered text is the
entire post-header slice of the buffer — through the regular branch
(the quirk condition does not hold here).  For a non-error frame the
single callback carries no error; for an `NLMSG_ERROR` frame it carries
the nonzero code (the code-0 case is suppressed, see the counterexample). -/
theorem claim3_single_frame_full_payload_amended (b : List Nat)
    (hlen : u32le b = b.length)
    (h16 : NLMSG_HDRLEN ≤ b.length) (hmod : b.length % 4 = 0) :
    (u16le (b.drop 4) ≠ NLMSG_ERROR →
      splitMessages b = some [⟨u16le (b.drop 4), b.drop NLMSG_HDRLEN, none⟩]) ∧
    (∀ v : Int, u16le (b.drop 4) = NLMSG_ERROR →
      readErrCode (b.drop NLMSG_HDRLEN) = some v → v ≠ 0 →
      splitMessages b = some [⟨NLMSG_ERROR, b.drop NLMSG_HDRLEN,
        some (.receiveError v)⟩]) := by
  have halign : nlmAlignOf (u32le b) = b.length := by
    rw [hlen]; exact nlmAlignOf_of_mod _ hmod
  have hdlen : (b.drop NLMSG_HDRLEN).length = b.length - NLMSG_HDRLEN :=
    List.length_drop _ _
  have hquirk : ¬ ((b.drop NLMSG_HDRLEN).length = u32le b ∨
      nlmAlignOf (u32le b) - NLMSG_HDRLEN = u32le b) := by
    rw [hdlen, halign, hlen]
    unfold NLMSG_HDRLEN at *
    omega
  have htake : (b.drop NLMSG_HDRLEN).take (u32le b - NLMSG_HDRLEN) =
      b.drop NLMSG_HDRLEN := by
    apply List.take_of_length_le
    rw [hdlen, hlen]
  have hdropnil : (b.drop NLMSG_HDRLEN).drop (nlmAlignOf (u32le b) - NLMSG_HDRLEN) =
      ([] : List Nat) := by
    apply List.drop_eq_nil_of_le
    rw [hdlen, halign]
  have hd : nlmAlignOf (u32le b) - NLMSG_HDRLEN ≤ (b.drop NLMSG_HDRLEN).length := by
    rw [hdlen, halign]
  have hbnd : ¬ (u32le b < NLMSG_HDRLEN ∨ b.length < u32le b) := by
    rw [hlen]; omega
  have hnil : splitLoop b.length [] = some [] :=
    splitLoop_nil _ (by unfold NLMSG_HDRLEN at h16; omega)
  constructor
  · intro htype
    have hstep : splitStep b =
        some (some ([⟨u16le (b.drop 4), b.drop NLMSG_HDRLEN, none⟩], [])) := by
      unfold splitStep
      rw [if_neg (by omega), if_neg hbnd, if_neg hquirk, if_neg htype, if_pos hd,
        htake, hdropnil]
    unfold splitMessages
    rw [splitLoop, hstep]
    simp [hnil]
  · intro v htype hrc hv
    have hstep : splitStep b =
        some (some ([⟨NLMSG_ERROR, b.drop NLMSG_HDRLEN,
          some (.receiveError v)⟩], [])) := by
      unfold splitStep
      rw [if_neg (by omega), if_neg hbnd, if_neg hquirk, if_pos htype, hrc]
      dsimp only
      rw [if_pos hv, if_pos hd, htake, hdropnil, htype]
    unfold splitMessages
    rw [splitLoop, hstep]
    simp [hnil]

theorem claim3_single_frame_full_payload_amended_witness :
    splitMessages [20, 0, 0, 0, 1, 0, 0, 0, 0, 0, 0, 0, 0, 0, 0, 0, 8, 9, 10, 11] =
      some [⟨u16le (([20, 0, 0, 0, 1, 0, 0, 0, 0, 0, 0, 0, 0, 0, 0, 0,
        8, 9, 10, 11] : List Nat).drop 4),
        ([20, 0, 0, 0, 1, 0, 0, 0, 0, 0, 0, 0, 0, 0, 0, 0,
          8, 9, 10, 11] : List Nat).drop NLMSG_HDRLEN, none⟩] :=
  (claim3_single_frame_full_payload_amended
    [20, 0, 0, 0, 1, 0, 0, 0, 0, 0, 0, 0, 0, 0, 0, 0, 8, 9, 10, 11]
    (by decide) (by decide) (by decide)).1 (by decide)

/-- Claim C4: the per-frame advance `b = b[dlen:]` with
`dlen = nlmAlignOf(h.Len) - NLMSG_HDRLEN` is within bounds exactly under
the precondition `nlmAlignOf(h.Len) ≤ NLMSG_HDRLEN + len(b)` (with `b`
the buffer after the header strip): for well-formed non-error frames the
step succeeds if and only if that precondition holds, and when it fails
(e.g. a final frame whose `h.Len` is not a multiple of the alignment and
whose buffer ends exactly at `h.Len` bytes) the total embedding returns
`none` instead of a frame sequence. -/
theorem claim4_advance_in_bounds_iff (b : List Nat)
    (h16 : NLMSG_HDRLEN ≤ b.length)
    (hlb : NLMSG_HDRLEN ≤ u32le b) (hub : u32le b ≤ b.length)
    (htype : u16le (b.drop 4) ≠ NLMSG_ERROR) :
    splitStep b ≠ none ↔
      nlmAlignOf (u32le b) ≤ NLMSG_HDRLEN + (b.drop NLMSG_HDRLEN).length := by
  have hbnd : ¬ (u32le b < NLMSG_HDRLEN ∨ b.length < u32le b) := by omega
  have hdl : (b.drop NLMSG_HDRLEN).length = b.length - NLMSG_HDRLEN :=
    List.length_drop _ _
  have hal := le_nlmAlignOf (u32le b)
  unfold splitStep
  rw [if_neg (by omega), if_neg hbnd]
  by_cases hq : (b.drop NLMSG_HDRLEN).length = u32le b ∨
      nlmAlignOf (u32le b) - NLMSG_HDRLEN = u32le b
  · rw [if_pos hq, if_neg htype]
    by_cases hd : nlmAlignOf (u32le b) - NLMSG_HDRLEN ≤ (b.drop NLMSG_HDRLEN).length
    · rw [if_pos hd]
      constructor
      · intro _
        unfold NLMSG_HDRLEN at *
        omega
      · intro _
        simp
    · rw [if_neg hd]
      constructor
      · intro h
        exact absurd rfl h
      · intro h
        exfalso
        unfold NLMSG_HDRLEN at *
        omega
  · rw [if_neg hq, if_neg htype]
    by_cases hd : nlmAlignOf (u32le b) - NLMSG_HDRLEN ≤ (b.drop NLMSG_HDRLEN).length
    · rw [if_pos hd]
      constructor
      · intro _
        unfold NLMSG_HDRLEN at *
        omega
      · intro _
        simp
    · rw [if_neg hd]
      constructor
      · intro h
        exact absurd rfl h
      · intro h
        exfalso
        unfold NLMSG_HDRLEN at *
        omega

theorem claim4_advance_in_bounds_iff_witness :
    splitStep [16, 0, 0, 0, 1, 0, 0, 0, 0, 0, 0, 0, 0, 0, 0, 0] ≠ none ∧
    splitStep [17, 0, 0, 0, 1, 0, 0, 0, 0, 0, 0, 0, 0, 0, 0, 0, 99] = none := by
  constructor
  · exact (claim4_advance_in_bounds_iff
      [16, 0, 0, 0, 1, 0, 0, 0, 0, 0, 0, 0, 0, 0, 0, 0]
      (by decide) (by decide) (by decide) (by decide)).mpr (by decide)
  · have h := claim4_advance_in_bounds_iff
      [17, 0, 0, 0, 1, 0, 0, 0, 0, 0, 0, 0, 0, 0, 0, 0, 99]
      (by decide) (by decide) (by decide) (by decide)
    exact not_not.mp (mt h.mp (by decide))

/-- Claim C5: the 4-byte error-code extraction
`int32(nativeEndian().Uint32(b[0:4]))` has no length guard: it is defined
exactly when the frame body holds at least 4 bytes, and an error frame
with a shorter body (e.g. `header.length` equal to the header size, so an
empty body) makes every driver path that reaches it out of bounds — the
total embedding returns `none`. -/
theorem claim5_error_code_needs_four_bytes :
    (∀ b : List Nat, (readErrCode b).isSome ↔ 4 ≤ b.length) ∧
    getAuditEventsDispatch okParser ⟨⟨16, NLMSG_ERROR⟩, []⟩ = none ∧
    getRawAuditEventsDispatch placeholder ⟨⟨16, NLMSG_ERROR⟩, []⟩ = none ∧
    getAuditMessagesDispatch okParser ⟨⟨16, NLMSG_ERROR⟩, []⟩ = none ∧
    splitMessages [16, 0, 0, 0, 2, 0, 0, 0, 0, 0, 0, 0, 0, 0, 0, 0] = none := by
  refine ⟨fun b => ?_, by decide, by decide, by decide, by decide⟩
  unfold readErrCode
  split
  next h => simp; omega
  next h => simp; omega

theorem claim5_error_code_needs_four_bytes_witness :
    (readErrCode [1, 2, 3]).isSome ↔ 4 ≤ ([1, 2, 3] : List Nat).length :=
  claim5_error_code_needs_four_bytes.1 [1, 2, 3]

/-- Claim C6: for every non-error frame whose numeric type resolves to
the synthetic placeholder, the parsed-output path delivers exactly one
callback invocation with a nil event and a decode-failure error — the
unknown-type error carrying the numeric code when the external parser
succeeds (its result's type field then still equals the placeholder), or
the parser's own error when parsing fails first — never a
partially-populated event presented as successful.  The raw-output path
(`GetRawAuditEvents`) likewise delivers one invocation carrying its
unknown-type error. -/
theorem claim6_unknown_type_decode_failure (parser : AuditParser)
    (resolver : TypeResolver) (msg : NetlinkMessage)
    (hne : msg.header.Typ ≠ NLMSG_ERROR)
    (hcopy : ∀ s t e, parser s t = .ok e → e.Typ = resolver t)
    (hres : resolver msg.header.Typ = placeholder msg.header.Typ) :
    getAuditEventsDispatch parser msg = some [⟨none, some
      (match parser (byteText msg.data) msg.header.Typ with
        | .ok _ => .newEventUnknownType msg.header.Typ
        | .error e => .parseError e)⟩] ∧
    getRawAuditEventsDispatch resolver msg =
      some [⟨"", some (.unknownTypeRaw msg.header.Typ)⟩] := by
  constructor
  · unfold getAuditEventsDispatch NewAuditEvent
    rw [if_neg hne]
    rcases hp : parser (byteText msg.data) msg.header.Typ with e | x
    · simp [hp]
    · have hx : x.Typ = placeholder msg.header.Typ := by
        rw [hcopy _ _ _ hp, hres]
      simp [hp, hx]
  · unfold getRawAuditEventsDispatch
    rw [if_neg hne, if_pos hres]

theorem claim6_unknown_type_decode_failure_witness :
    getAuditEventsDispatch okParser ⟨⟨20, 9999⟩, [65]⟩ =
      some [⟨none, some (.newEventUnknownType 9999)⟩] ∧
    getRawAuditEventsDispatch placeholder ⟨⟨20, 9999⟩, [65]⟩ =
      some [⟨"", some (.unknownTypeRaw 9999)⟩] :=
  claim6_unknown_type_decode_failure okParser placeholder ⟨⟨20, 9999⟩, [65]⟩
    (by decide)
    (fun s t e h => by
      unfold okParser at h
      cases h
      rfl)
    rfl

/-- Claim C7: in every driver variant, an iteration whose transport read
returns an error invokes the callback zero times and continues the loop
(result `.next`, never `.stop`): read errors are neither forwarded to the
callback nor do they terminate the loop. -/
theorem claim7_read_errors_swallowed (parser : AuditParser)
    (resolver : TypeResolver) (e : String) :
    getAuditEventsIter parser (.error e) = some ([], .next) ∧
    getRawAuditEventsIter resolver (.error e) = some ([], .next) ∧
    getRawAuditMessagesIter false (.error e) = some ([], .next) ∧
    getAuditMessagesIter parser false (.error e) = some ([], .next) :=
  ⟨rfl, rfl, rfl, rfl⟩

theorem claim7_read_errors_swallowed_witness :
    getAuditEventsIter okParser (.error "read failed") = some ([], .next) ∧
    getRawAuditEventsIter placeholder (.error "read failed") = some ([], .next) ∧
    getRawAuditMessagesIter false (.error "read failed") = some ([], .next) ∧
    getAuditMessagesIter okParser false (.error "read failed") = some ([], .next) :=
  claim7_read_errors_swallowed okParser placeholder "read failed"

/-- Claim C8: when the decoded header violates the bounds check
(`h.Len < NLMSG_HDRLEN` or `h.Len > len(b)`), the splitter stops
immediately: the step yields no frame (loop exit, not a panic), and the
loop run from that buffer delivers no callback invocations and raises no
error — the remaining bytes are silently dropped. -/
theorem claim8_malformed_bounds_stop (b : List Nat) (fuel : Nat)
    (h16 : NLMSG_HDRLEN ≤ b.length)
    (hbad : u32le b < NLMSG_HDRLEN ∨ b.length < u32le b) :
    splitStep b = some none ∧ splitLoop (fuel + 1) b = some [] := by
  have h1 : splitStep b = some none := by
    unfold splitStep
    rw [if_neg (by omega), if_pos hbad]
  refine ⟨h1, ?_⟩
  unfold splitLoop
  rw [h1]

theorem claim8_malformed_bounds_stop_witness :
    splitStep [0, 0, 0, 0, 1, 0, 0, 0, 0, 0, 0, 0, 0, 0, 0, 0] = some none ∧
    splitLoop 1 [0, 0, 0, 0, 1, 0, 0, 0, 0, 0, 0, 0, 0, 0, 0, 0] = some [] :=
  claim8_malformed_bounds_stop [0, 0, 0, 0, 1, 0, 0, 0, 0, 0, 0, 0, 0, 0, 0, 0]
    0 (by decide) (by decide)

/-- Claim C9: every frame the splitter yields advances the cursor by
exactly `nlmAlignOf h.Len` bytes in total (`NLMSG_HDRLEN` for the header
plus `dlen = nlmAlignOf h.Len - NLMSG_HDRLEN` for the payload), never by
the unaligned `h.Len`: the next iteration begins at the aligned frame
boundary. -/
theorem claim9_advance_is_aligned_length (b : List Nat)
    (calls : List RawTypeCb) (b' : List Nat)
    (hs : splitStep b = some (some (calls, b'))) :
    b' = b.drop (nlmAlignOf (u32le b)) ∧
      b.length = nlmAlignOf (u32le b) + b'.length := by
  have h16 : ¬ b.length < NLMSG_HDRLEN := by
    intro h
    unfold splitStep at hs
    rw [if_pos h] at hs
    simp at hs
  have hbnd : ¬ (u32le b < NLMSG_HDRLEN ∨ b.length < u32le b) := by
    intro h
    unfold splitStep at hs
    rw [if_neg h16, if_pos h] at hs
    simp at hs
  have halign : NLMSG_HDRLEN ≤ nlmAlignOf (u32le b) := by
    have := le_nlmAlignOf (u32le b)
    unfold NLMSG_HDRLEN at hbnd ⊢
    omega
  have key : nlmAlignOf (u32le b) - NLMSG_HDRLEN ≤ (b.drop NLMSG_HDRLEN).length ∧
      b' = (b.drop NLMSG_HDRLEN).drop (nlmAlignOf (u32le b) - NLMSG_HDRLEN) := by
    unfold splitStep at hs
    rw [if_neg h16, if_neg hbnd] at hs
    split at hs
    · split at hs
      · split at hs
        · simp at hs
        · split at hs <;> split at hs <;> simp_all
      · split at hs <;> simp_all
    · split at hs
      · split at hs
        · simp at hs
        · split at hs <;> split at hs <;> simp_all
      · split at hs <;> simp_all
  obtain ⟨hd, hb'⟩ := key
  have hdl : (b.drop NLMSG_HDRLEN).length = b.length - NLMSG_HDRLEN :=
    List.length_drop _ _
  subst hb'
  rw [List.drop_drop, List.length_drop]
  unfold NLMSG_HDRLEN at *
  constructor
  · congr 1
    omega
  · omega

theorem claim9_advance_is_aligned_length_witness :
    ([] : List Nat) =
      ([16, 0, 0, 0, 1, 0, 0, 0, 0, 0, 0, 0, 0, 0, 0, 0] : List Nat).drop
        (nlmAlignOf (u32le [16, 0, 0, 0, 1, 0, 0, 0, 0, 0, 0, 0, 0, 0, 0, 0])) ∧
    ([16, 0, 0, 0, 1, 0, 0, 0, 0, 0, 0, 0, 0, 0, 0, 0] : List Nat).length =
      nlmAlignOf (u32le [16, 0, 0, 0, 1, 0, 0, 0, 0, 0, 0, 0, 0, 0, 0, 0]) +
        ([] : List Nat).length :=
  claim9_advance_is_aligned_length
    [16, 0, 0, 0, 1, 0, 0, 0, 0, 0, 0, 0, 0, 0, 0, 0]
    [⟨1, [], none⟩] [] (by decide)

/-- Claim C10: for the two cancellable drivers, once the cancellation
signal is observable (at check index `k`), a signalled check returns
immediately with no callback, the loop's return index is at most `k`, and
every receive-and-dispatch cycle that did run was at an iteration where
the signal was not yet observable — so at most the single cycle in flight
when the signal arrives runs after it, and none after it becomes
observable. -/
theorem claim10_cancellation_at_most_one_cycle (parser : AuditParser)
    (recvRaw : Nat → Except String (List Nat))
    (recvP : Nat → Except String (List NetlinkMessage))
    (obs : Nat → Bool) (k fuel fuel' r r' : Nat)
    (acc : List RawTypeCb) (acc' : List ParsedCb)
    (hk : obs k = true)
    (h1 : runCancellable (fun i d => getRawAuditMessagesIter d (recvRaw i))
      obs fuel 0 = some (r, acc))
    (h2 : runCancellable (fun i d => getAuditMessagesIter parser d (recvP i))
      obs fuel' 0 = some (r', acc')) :
    (∀ rv, getRawAuditMessagesIter true rv = some ([], .stop)) ∧
    (∀ rv, getAuditMessagesIter parser true rv = some ([], .stop)) ∧
    r ≤ k ∧ r' ≤ k ∧
    (∀ i, i < r → obs i = false) ∧ (∀ i, i < r' → obs i = false) := by
  have ha := runCancellable_not_signalled
    (fun i d => getRawAuditMessagesIter d (recvRaw i)) obs (fun i => rfl)
    fuel 0 r acc h1
  have hb := runCancellable_not_signalled
    (fun i d => getAuditMessagesIter parser d (recvP i)) obs (fun i => rfl)
    fuel' 0 r' acc' h2
  refine ⟨fun rv => rfl, fun rv => rfl, ?_, ?_,
    fun i hi => ha i (Nat.zero_le i) hi, fun i hi => hb i (Nat.zero_le i) hi⟩
  · by_contra hgt
    have := ha k (Nat.zero_le k) (by omega)
    rw [hk] at this
    cases this
  · by_contra hgt
    have := hb k (Nat.zero_le k) (by omega)
    rw [hk] at this
    cases this

theorem claim10_cancellation_at_most_one_cycle_witness :
    (1 : Nat) ≤ 1 ∧ (fun i => decide (1 ≤ i)) 0 = false := by
  have h := claim10_cancellation_at_most_one_cycle okParser
    (fun i => .error "e") (fun i => .error "e")
    (fun i => decide (1 ≤ i)) 1 3 3 1 1 [] []
    (by decide) (by rfl) (by rfl)
  exact ⟨h.2.2.1, h.2.2.2.2.1 0 (by decide)⟩

end LibAudit
